import Mathlib

/-!
Shallow embedding of the DeusExMachina monitoring core, checked against its
natural-language specification.

Sources embedded:
* src/enhanced/consciousness.py  (arousal state controller)
* src/enhanced/memory.py         (trend and anomaly analytics)
* src/enhanced/prediction.py     (forecast ensemble, maintenance scheduler)

Conventions: Python floats are modelled by exact rationals; the single square
root in the analytics (variance ** 0.5) is modelled by Real.sqrt. Timestamps
are rationals counting hours. Fallible code paths are made total exactly like
the source (guards, try/except fallbacks).
-/

set_option allowUnsafeReducibility true in
attribute [semireducible] Rat.add Rat.sub Rat.mul Rat.div Rat.neg Rat.inv

namespace DeusEx

/-! ## Arousal state controller (src/enhanced/consciousness.py) -/

/-- The five consciousness states, declared in ascending order as in the
Python Enum (auto values 1..5). -/
inductive CState where
  | DORMANT
  | DROWSY
  | AWARE
  | ALERT
  | FULLY_AWAKE
deriving DecidableEq, Repr

/-- Numeric value of a state, matching the Python Enum auto numbering used in
comparisons such as self.state.value < ConsciousnessState.AWARE.value. -/
def CState.val : CState → Nat
  | .DORMANT => 1
  | .DROWSY => 2
  | .AWARE => 3
  | .ALERT => 4
  | .FULLY_AWAKE => 5

/-- One recorded state transition (ConsciousnessTransition). Timestamps are
rational hours. -/
structure CTransition where
  fromState : CState
  toState : CState
  reason : String
  timestamp : ℚ
deriving DecidableEq, Repr

/-- The mutable fields of the Consciousness object that the transition logic
touches: current state, in-memory transition history, last state-change time
and the activity-record map (association list). -/
structure CStore where
  state : CState
  stateHistory : List CTransition
  lastStateChange : ℚ
  lastActivity : List (String × ℚ)
deriving DecidableEq, Repr

/-- Consciousness.change_state: returns False and leaves everything untouched
when the target equals the current state; otherwise appends a transition to
the in-memory history, updates the current state and the last-change
timestamp. -/
def changeState (now : ℚ) (s : CStore) (newState : CState) (reason : String) :
    Bool × CStore :=
  if newState = s.state then (false, s)
  else
    (true,
      { s with
        state := newState
        stateHistory := s.stateHistory ++ [⟨s.state, newState, reason, now⟩]
        lastStateChange := now })

/-- The history slice that _save_state persists: state_history[-50:], i.e. the
most recent 50 transitions. -/
def persistedHistory (s : CStore) : List CTransition :=
  s.stateHistory.drop (s.stateHistory.length - 50)

/-- Consciousness.time_since_state_change: scan the history backwards for the
last transition into the given state. -/
def timeSinceStateChange (now : ℚ) (s : CStore) (target : CState) : Option ℚ :=
  match s.stateHistory.reverse.find? (fun t => t.toState == target) with
  | some t => some (now - t.timestamp)
  | none => none

/-- Consciousness.should_transition: the pure advisory predicate. It consults
only the current state and (for DORMANT to DROWSY) the elapsed time since the
last DROWSY visit. The leading equal-state early return of the source appears
here as the diagonal none arms of the (current, target) dispatch. -/
def shouldTransition (now : ℚ) (s : CStore) (target : CState) : Option String :=
  match s.state, target with
  | .DORMANT, .DORMANT => none
  | .DORMANT, .DROWSY =>
    match timeSinceStateChange now s .DROWSY with
    | none => some "Scheduled awakening for routine check"
    | some d =>
      if d > 8 then some "Scheduled awakening for routine check" else none
  | .DORMANT, .AWARE => some "Unusual metrics detected in biological monitoring"
  | .DORMANT, .ALERT => some "Critical issue detected by biological monitoring"
  | .DORMANT, .FULLY_AWAKE =>
    some "Critical issue detected by biological monitoring"
  | .DROWSY, .DORMANT => some "All systems normal, returning to dormant state"
  | .DROWSY, .DROWSY => none
  | .DROWSY, .AWARE => some "Issues detected during routine analysis"
  | .DROWSY, .ALERT => some "Issues detected during routine analysis"
  | .DROWSY, .FULLY_AWAKE => some "Issues detected during routine analysis"
  | .AWARE, .DORMANT => some "Situation resolved, reducing awareness level"
  | .AWARE, .DROWSY => some "Situation resolved, reducing awareness level"
  | .AWARE, .AWARE => none
  | .AWARE, .ALERT => some "Situation worsening, increasing awareness level"
  | .AWARE, .FULLY_AWAKE =>
    some "Situation worsening, increasing awareness level"
  | .ALERT, .DORMANT => some "Situation improving, reducing awareness level"
  | .ALERT, .DROWSY => some "Situation improving, reducing awareness level"
  | .ALERT, .AWARE => some "Situation improving, reducing awareness level"
  | .ALERT, .ALERT => none
  | .ALERT, .FULLY_AWAKE =>
    some "Critical situation detected, full awareness required"
  | .FULLY_AWAKE, .FULLY_AWAKE => none
  | .FULLY_AWAKE, _ => some "Crisis resolved, reducing awareness level"

/-- Hour-of-day of a rational hours-since-midnight-epoch timestamp, matching
datetime.hour. -/
def hourOf (t : ℚ) : ℤ := t.floor % 24

/-- First phase of _check_time_based_transitions: the per-state time-based
decay rules, in the order the Python statements run. -/
def decayStep (now : ℚ) (s : CStore) : CStore :=
  if s.state = .FULLY_AWAKE then
    if now - s.lastStateChange > 1 then
      match (s.lastActivity.map (·.2)).max? with
      | none =>
        (changeState now s .ALERT "Time limit reached for fully awake state").2
      | some t =>
        if now - t > 1/2 then
          (changeState now s .ALERT
            "Time limit reached for fully awake state").2
        else s
    else s
  else if s.state = .ALERT then
    if now - s.lastStateChange > 4 then
      (changeState now s .AWARE "Time limit reached for alert state").2
    else s
  else if s.state = .AWARE then
    if now - s.lastStateChange > 8 then
      (changeState now s .DROWSY "Time limit reached for aware state").2
    else s
  else if s.state = .DROWSY then
    match s.lastActivity.lookup "drowsy_analysis" with
    | some t =>
      if now - t > 1/4 then
        (changeState now s .DORMANT
          "Analysis complete, returning to dormant state").2
      else s
    | none => s
  else s

/-- Second phase of _check_time_based_transitions: the daily scheduled-wake
rule (wake hour hardcoded to 3 in the source), evaluated on the store the
decay rules produced. -/
def dailyWakeCheck (now : ℚ) (s1 : CStore) : CStore :=
  let wakeDue :=
    match timeSinceStateChange now s1 .AWARE with
    | none => true
    | some d => decide (d > 24)
  if wakeDue && decide (hourOf now = 3) &&
      decide (s1.state.val < CState.AWARE.val) then
    (changeState now s1 .AWARE "Scheduled daily wake-up for system check").2
  else s1

/-- Consciousness._check_time_based_transitions: decay rules followed by the
daily wake rule, matching the statement order of the source. -/
def checkTimeBasedTransitions (now : ℚ) (s : CStore) : CStore :=
  dailyWakeCheck now (decayStep now s)

/-- Fold a list of requested transitions through changeState, as a driver
calling change_state repeatedly would. -/
def applyChanges (now : ℚ) (s : CStore) : List (CState × String) → CStore
  | [] => s
  | (st, r) :: rest => applyChanges now (changeState now s st r).2 rest

/-- A sequence of 51 alternating transition requests, every one effective. -/
def altSeq51 : List (CState × String) :=
  (List.range 51).map
    (fun i => (if i % 2 = 0 then CState.DROWSY else CState.DORMANT, "routine"))

/-- The initial in-memory store of a fresh controller. -/
def freshStore : CStore := ⟨.DORMANT, [], 0, []⟩

/-- Changing state never removes the last transition into a state other than
the new target from the history scan of timeSinceStateChange. -/
theorem timeSinceStateChange_changeState_ne (now now' : ℚ) (s : CStore)
    (ns : CState) (r : String) (target : CState) (hne : ns ≠ target) :
    timeSinceStateChange now ((changeState now' s ns r).2) target =
      timeSinceStateChange now s target := by
  unfold changeState
  by_cases h : ns = s.state
  · simp [h]
  · simp only [h, if_neg (by simpa using h)]
    simp [timeSinceStateChange, List.find?, beq_eq_false_iff_ne, hne]

/-! ### Claim theorems for the state controller -/

set_option maxRecDepth 10000 in
/-- C4 counterexample: 51 effective change_state calls from a fresh controller
leave an in-memory transition history of length 51 — the code never trims the
in-memory list, so the length is not capped at 50. -/
theorem historyCap_counterexample :
    50 < (applyChanges 0 freshStore altSeq51).stateHistory.length := by decide

/-- C4 amended: the bound holds for the persisted snapshot. _save_state writes
only state_history[-50:], so what is retained durably never exceeds 50
transitions; the in-memory list itself grows by one per effective transition
without bound. -/
theorem persistedHistory_length_le (s : CStore) :
    (persistedHistory s).length ≤ 50 := by
  simp only [persistedHistory, List.length_drop]
  omega

/-- C5: change_state with the current state as target is a no-op. It returns
false and leaves the level, the history (hence its length) and the last-change
timestamp untouched. -/
theorem changeState_self_noop (now : ℚ) (s : CStore) (reason : String) :
    changeState now s s.state reason = (false, s) := by
  simp [changeState]

/-- C6 counterexample: at the wake hour (3), with AWARE never visited, a
controller sitting at ALERT is not forced to AWARE — the scheduled-wake rule
fires only when the current level is strictly below AWARE. -/
theorem dailyWake_counterexample :
    (checkTimeBasedTransitions 3 ⟨.ALERT, [], 3, []⟩).state ≠ CState.AWARE ∧
      timeSinceStateChange 3 ⟨.ALERT, [], 3, []⟩ .AWARE = none ∧
      hourOf 3 = 3 := by decide

/-- Helper: the daily wake rule fires whenever the AWARE visit is stale, the
hour matches and the level sits below AWARE. -/
theorem dailyWakeCheck_fires (now : ℚ) (s1 : CStore)
    (hst : s1.state = CState.DORMANT ∨ s1.state = CState.DROWSY)
    (hstale : ∀ d, timeSinceStateChange now s1 .AWARE = some d → d > 24)
    (hhour : hourOf now = 3) :
    (dailyWakeCheck now s1).state = .AWARE := by
  have hdue : (match timeSinceStateChange now s1 .AWARE with
      | none => true
      | some d => decide (d > 24)) = true := by
    cases h : timeSinceStateChange now s1 .AWARE with
    | none => rfl
    | some d => simpa using hstale d h
  have hlow : s1.state.val < CState.AWARE.val := by
    rcases hst with h | h <;> simp [h, CState.val]
  have hne : ¬ (CState.AWARE = s1.state) := by
    rcases hst with h | h <;> simp [h]
  unfold dailyWakeCheck
  rw [hdue]
  simp [hhour, hlow, changeState, hne]

/-- Helper: on a DORMANT or DROWSY store, the decay phase leaves the level
below AWARE and does not disturb the last-AWARE-visit scan. -/
theorem decayStep_below_aware (now : ℚ) (s : CStore)
    (hstate : s.state = .DORMANT ∨ s.state = .DROWSY) :
    ((decayStep now s).state = CState.DORMANT ∨
      (decayStep now s).state = CState.DROWSY) ∧
      timeSinceStateChange now (decayStep now s) .AWARE =
        timeSinceStateChange now s .AWARE := by
  rcases hstate with h | h
  · constructor
    · left; simp [decayStep, h]
    · simp [decayStep, h]
  · have hchain : decayStep now s =
        (match s.lastActivity.lookup "drowsy_analysis" with
          | some t =>
            if now - t > 1/4 then
              (changeState now s .DORMANT
                "Analysis complete, returning to dormant state").2
            else s
          | none => s) := by
      simp [decayStep, h]
    rw [hchain]
    cases hl : s.lastActivity.lookup "drowsy_analysis" with
    | none => exact ⟨Or.inr h, by trivial⟩
    | some t =>
      by_cases htime : now - t > 1/4
      · simp only [htime, if_true]
        refine ⟨Or.inl ?_, ?_⟩
        · simp [changeState, h]
        · exact timeSinceStateChange_changeState_ne now now s _ _ _ (by simp)
      · simp only [htime, if_false]
        exact ⟨Or.inr h, by trivial⟩

/-- C6 amended: at the wake hour, if AWARE has not been visited within the
last 24 hours, the tick forces a transition to AWARE provided the current
level is below AWARE (DORMANT or DROWSY); at ALERT and FULLY_AWAKE the daily
wake rule does not apply. -/
theorem dailyWake_below_aware (now : ℚ) (s : CStore)
    (hstate : s.state = .DORMANT ∨ s.state = .DROWSY)
    (hstale : ∀ d, timeSinceStateChange now s .AWARE = some d → d > 24)
    (hhour : hourOf now = 3) :
    (checkTimeBasedTransitions now s).state = .AWARE := by
  obtain ⟨hbelow, hts⟩ := decayStep_below_aware now s hstate
  exact dailyWakeCheck_fires now (decayStep now s) hbelow
    (fun d hd => hstale d (hts ▸ hd)) hhour

/-- C6 amended, witness: a fresh DORMANT controller at hour 3 with no AWARE
visit on record is woken to AWARE. -/
theorem dailyWake_below_aware_witness :
    (checkTimeBasedTransitions 3 freshStore).state = .AWARE :=
  dailyWake_below_aware 3 freshStore (Or.inl rfl)
    (by intro d hd; simp [timeSinceStateChange, freshStore] at hd)
    (by decide)

/-- C10: from DORMANT, should_transition to AWARE, ALERT or FULLY_AWAKE
returns a non-empty reason unconditionally — no evidence or severity input
participates, so the advisory predicate never blocks a direct escalation from
DORMANT. -/
theorem dormant_escalation_unconditional (now : ℚ) (s : CStore)
    (h : s.state = .DORMANT) :
    (∃ r, shouldTransition now s .AWARE = some r ∧ r ≠ "") ∧
      (∃ r, shouldTransition now s .ALERT = some r ∧ r ≠ "") ∧
      (∃ r, shouldTransition now s .FULLY_AWAKE = some r ∧ r ≠ "") := by
  unfold shouldTransition
  rw [h]
  exact ⟨⟨_, rfl, by decide⟩, ⟨_, rfl, by decide⟩, ⟨_, rfl, by decide⟩⟩

/-- C10 witness: the fresh DORMANT controller gets all three escalation
reasons. -/
theorem dormant_escalation_unconditional_witness :
    (∃ r, shouldTransition 0 freshStore .AWARE = some r ∧ r ≠ "") ∧
      (∃ r, shouldTransition 0 freshStore .ALERT = some r ∧ r ≠ "") ∧
      (∃ r, shouldTransition 0 freshStore .FULLY_AWAKE = some r ∧ r ≠ "") :=
  dormant_escalation_unconditional 0 freshStore rfl

/-! ## Trend and anomaly analytics (src/enhanced/memory.py) -/

/-- Mean of a list of rationals, sum / count as in the source (division by
zero only ever reached on the guarded empty case, where Lean yields 0). -/
def meanOf (l : List ℚ) : ℚ := l.sum / (l.length : ℚ)

/-- Population variance as computed in both calculate_metric_trends and
detect_anomalies. -/
def varianceOf (l : List ℚ) : ℚ :=
  (l.map (fun x => (x - meanOf l) * (x - meanOf l))).sum / (l.length : ℚ)

/-- Minimum of a nonempty list (Python min). -/
def listMin (l : List ℚ) : ℚ :=
  match l with
  | [] => 0
  | h :: t => t.foldl min h

/-- Maximum of a nonempty list (Python max). -/
def listMax (l : List ℚ) : ℚ :=
  match l with
  | [] => 0
  | h :: t => t.foldl max h

/-- Ordinary least squares slope over a list of (x, y) pairs, with the
ZeroDivisionError guard of the source mapped to a zero-denominator test. -/
def olsSlope (pts : List (ℚ × ℚ)) : ℚ :=
  let n : ℚ := pts.length
  let sx := (pts.map (·.1)).sum
  let sy := (pts.map (·.2)).sum
  let sxy := (pts.map (fun p => p.1 * p.2)).sum
  let sxx := (pts.map (fun p => p.1 * p.1)).sum
  if n * sxx - sx * sx = 0 then 0 else (n * sxy - sx * sy) / (n * sxx - sx * sx)

/-- Pair each value with its sample index, the x axis the source feeds to its
inline regression (x = list(range(len(data_points)))). -/
def idxPairs (l : List ℚ) : List (ℚ × ℚ) :=
  ((List.range l.length).map (fun i => (i : ℚ))).zip l

/-- Statistics record of a successful calculate_metric_trends call; std_dev
models variance ** 0.5. -/
structure TrendStats where
  count : ℕ
  current : ℚ
  minVal : ℚ
  maxVal : ℚ
  mean : ℚ
  std_dev : ℝ
  trend : String
  slope : ℚ
  change_rate_pct : ℚ

/-- Result of calculate_metric_trends: no data at all, a single point (the
available=True record whose trend field says insufficient_data and which
carries only the observed current value), or full statistics. -/
inductive TrendResult where
  | unavailable (reason : String)
  | insufficient (count : ℕ) (current : ℚ)
  | stats (st : TrendStats)

/-- Slope carried by a full-statistics trend result, if any. -/
def TrendResult.slope? : TrendResult → Option ℚ
  | .stats st => some st.slope
  | _ => none

/-- DeusMemory.calculate_metric_trends on the (timestamp, value) series the
store returned. Timestamps are never consulted by the source computation. -/
noncomputable def calculateMetricTrends (values : List (ℚ × ℚ)) : TrendResult :=
  if values = [] then .unavailable "No data available"
  else
    let dataPoints := values.map (·.2)
    if 2 ≤ dataPoints.length then
      let mean := meanOf dataPoints
      let firstHalf := dataPoints.take (dataPoints.length / 2)
      let secondHalf := dataPoints.drop (dataPoints.length / 2)
      let firstAvg := if firstHalf = [] then 0 else meanOf firstHalf
      let secondAvg := if secondHalf = [] then 0 else meanOf secondHalf
      let trendDirection :=
        if secondAvg > firstAvg * (11/10) then "increasing"
        else if secondAvg < firstAvg * (9/10) then "decreasing"
        else "stable"
      let slope :=
        if 3 ≤ dataPoints.length then olsSlope (idxPairs dataPoints) else 0
      let normalizedSlope := if mean ≠ 0 then slope * 24 / mean else 0
      .stats
        { count := dataPoints.length
          current := dataPoints.getLast?.getD 0
          minVal := listMin dataPoints
          maxVal := listMax dataPoints
          mean := mean
          std_dev := Real.sqrt ((varianceOf dataPoints : ℚ) : ℝ)
          trend := trendDirection
          slope := slope
          change_rate_pct := normalizedSlope * 100 }
    else .insufficient dataPoints.length (dataPoints.getLast?.getD 0)

/-- One anomaly record: timestamp, value, z-score and percent deviation. -/
structure AnomalyPoint where
  timestamp : ℚ
  value : ℚ
  z_score : ℝ
  deviation_pct : ℚ

/-- Result of detect_anomalies: the insufficient-data record or a report with
the flag, the anomaly list and the summary statistics. -/
inductive AnomalyResult where
  | insufficient (reason : String)
  | report (detected : Bool) (count : ℕ) (anomalies : List AnomalyPoint)
      (mean : ℚ) (std_dev : ℝ) (threshold : ℚ)

/-- The anomalies_detected flag of a result (False on insufficient data, as
in the source dictionary). -/
def AnomalyResult.detectedFlag : AnomalyResult → Bool
  | .insufficient _ => false
  | .report det _ _ _ _ _ => det

/-- DeusMemory.detect_anomalies: z-score flagging with the std_dev = 0 and
mean = 0 guards of the source. -/
noncomputable def detectAnomalies (threshold : ℚ) (values : List (ℚ × ℚ)) :
    AnomalyResult :=
  if values.length < 3 then .insufficient "Insufficient data points"
  else
    let dataPoints := values.map (·.2)
    let mean := meanOf dataPoints
    let stdDev : ℝ := Real.sqrt ((varianceOf dataPoints : ℚ) : ℝ)
    let anomalies := values.filterMap (fun p =>
      let z : ℝ := if 0 < stdDev then ((p.2 : ℝ) - (mean : ℝ)) / stdDev else 0
      if |z| > (threshold : ℝ) then
        some ⟨p.1, p.2, z,
          if mean ≠ 0 then (p.2 - mean) / mean * 100 else 0⟩
      else none)
    .report (decide (0 < anomalies.length)) anomalies.length anomalies
      mean stdDev threshold

/-- Slope the specification sentence prescribes for trend analysis: ordinary
least squares over (hours since the first sample, value) pairs. Written from
the words of the spec for comparison against the source computation, which
regresses over sample indices instead. -/
def specSlopeHours (values : List (ℚ × ℚ)) : ℚ :=
  match values with
  | [] => 0
  | (t0, _) :: _ => olsSlope (values.map (fun p => (p.1 - t0, p.2)))

/-- Mean of a constant list is that constant. -/
theorem meanOf_const (c : ℚ) (l : List ℚ) (h0 : l ≠ []) (hc : ∀ x ∈ l, x = c) :
    meanOf l = c := by
  have hsum : l.sum = l.length • c := List.sum_eq_card_nsmul l c hc
  have hn : (l.length : ℚ) ≠ 0 := by
    simpa using List.length_pos.mpr h0 |>.ne'
  rw [meanOf, hsum, nsmul_eq_mul]
  field_simp

/-- Population variance of a constant list is zero. -/
theorem varianceOf_const (c : ℚ) (l : List ℚ) (h0 : l ≠ [])
    (hc : ∀ x ∈ l, x = c) : varianceOf l = 0 := by
  have hm := meanOf_const c l h0 hc
  have hz : ∀ y ∈ l.map (fun x => (x - meanOf l) * (x - meanOf l)), y = 0 := by
    intro y hy
    obtain ⟨x, hx, rfl⟩ := List.mem_map.mp hy
    rw [hc x hx, hm]; ring
  have hs : (l.map (fun x => (x - meanOf l) * (x - meanOf l))).sum = 0 := by
    rw [List.sum_eq_card_nsmul _ 0 hz, smul_zero]
  rw [varianceOf, hs, zero_div]

/-- C2: below the per-analysis minimum point count (2 for trend, 3 for
anomaly detection) the analysis yields only its explicit no-data or
insufficient-data record — never a full statistics record and, the functions
being total, never an exception. The one-point trend record carries only the
observed current value, no computed statistic. -/
theorem belowMinimum_unavailable (threshold : ℚ) (values : List (ℚ × ℚ)) :
    (values.length < 2 → ∀ st, calculateMetricTrends values ≠ .stats st) ∧
      (values.length < 3 →
        detectAnomalies threshold values =
          .insufficient "Insufficient data points") := by
  constructor
  · intro h st
    unfold calculateMetricTrends
    by_cases hnil : values = []
    · simp [hnil]
    · have h2 : ¬ (2 ≤ values.length) := by omega
      simp [hnil, h2]
  · intro h
    unfold detectAnomalies
    simp [h]

/-- C2 witness: a single-point series is refused by both analyses. -/
theorem belowMinimum_unavailable_witness :
    (∀ st, calculateMetricTrends [((0:ℚ), (5:ℚ))] ≠ .stats st) ∧
      detectAnomalies 2 [((0:ℚ), (5:ℚ))] =
        .insufficient "Insufficient data points" :=
  ⟨(belowMinimum_unavailable 2 [(0, 5)]).1 (by decide),
    (belowMinimum_unavailable 2 [(0, 5)]).2 (by decide)⟩

/-- C3 counterexample: the claim quantifies over every threshold, but with a
negative threshold a constant series of three samples is reported as fully
anomalous — each z-score is 0 and the code flags |0| greater than a negative
bound, so anomalies_detected comes back true. -/
theorem constantSeries_threshold_counterexample :
    (detectAnomalies (-1) [(0,5),(1,5),(2,5)]).detectedFlag = true := by
  have hm : meanOf [5,5,5] = 5 := meanOf_const 5 _ (by simp) (by simp)
  have hv : varianceOf [5,5,5] = 0 := varianceOf_const 5 _ (by simp) (by simp)
  have hmap : ([(0,5),(1,5),(2,5)] : List (ℚ × ℚ)).map (·.2) = [5,5,5] := by
    norm_num
  norm_num [detectAnomalies, hmap, hv, hm, List.filterMap_cons, Real.sqrt_zero,
    AnomalyResult.detectedFlag]

/-- C3 amended: for every constant series of at least 3 samples and every
nonnegative threshold, detect_anomalies reports no anomalies with an empty
list, because the zero standard deviation forces every z-score to 0. -/
theorem constantSeries_no_anomalies (t c : ℚ) (values : List (ℚ × ℚ))
    (h3 : 3 ≤ values.length) (hc : ∀ p ∈ values, p.2 = c) (ht : 0 ≤ t) :
    detectAnomalies t values = .report false 0 [] c 0 t := by
  have h0 : values.map (·.2) ≠ [] := by
    apply List.ne_nil_of_length_pos
    simp
    omega
  have hc2 : ∀ x ∈ values.map (·.2), x = c := by
    intro x hx
    obtain ⟨p, hp, rfl⟩ := List.mem_map.mp hx
    exact hc p hp
  have hm := meanOf_const c _ h0 hc2
  have hv := varianceOf_const c _ h0 hc2
  have hlen : ¬ (values.length < 3) := by omega
  have hsd : Real.sqrt (((varianceOf (values.map (·.2)) : ℚ)) : ℝ) = 0 := by
    rw [hv]; simp
  unfold detectAnomalies
  simp only [hlen, if_false, hsd, hm]
  have hfm : values.filterMap (fun p =>
      let z : ℝ := if 0 < (0:ℝ) then ((p.2 : ℝ) - (c : ℝ)) / 0 else 0
      if |z| > (t : ℝ) then
        some (⟨p.1, p.2, z,
          if c ≠ 0 then (p.2 - c) / c * 100 else 0⟩ : AnomalyPoint)
      else none) = [] := by
    rw [List.filterMap_eq_nil_iff]
    intro p hp
    simpa using ht
  rw [hfm]
  simp

/-- C3 amended, witness: three samples of value 5 with threshold 2 produce the
empty report. -/
theorem constantSeries_no_anomalies_witness :
    detectAnomalies 2 [(0,5),(1,5),(2,5)] = .report false 0 [] 5 0 2 :=
  constantSeries_no_anomalies 2 5 [(0,5),(1,5),(2,5)] (by decide) (by simp)
    (by decide)

/-- C7 counterexample: on three samples taken 0, 2 and 6 hours after the
first, the source regresses over the sample indices 0, 1, 2 and reports slope
1, whereas ordinary least squares over (hours since first sample, value) as
the claim states gives 9/28. -/
theorem trendSlope_counterexample :
    (calculateMetricTrends [(0,0),(2,1),(6,2)]).slope? = some 1 ∧
      specSlopeHours [(0,0),(2,1),(6,2)] = 9/28 ∧ ((9:ℚ)/28) ≠ 1 := by decide

/-- C7 amended: for every series of at least 3 points, the reported slope is
the ordinary least squares slope over (sample index, value) pairs — the
timestamps are ignored — and change_rate_pct equals slope times 24 divided by
the mean times 100, with 0 when the mean is 0. -/
theorem trendSlope_indexOLS (values : List (ℚ × ℚ)) (h3 : 3 ≤ values.length) :
    ∃ st, calculateMetricTrends values = .stats st ∧
      st.slope = olsSlope (idxPairs (values.map (·.2))) ∧
      st.change_rate_pct =
        (if meanOf (values.map (·.2)) ≠ 0
          then olsSlope (idxPairs (values.map (·.2))) * 24 /
            meanOf (values.map (·.2))
          else 0) * 100 := by
  have hnil : values ≠ [] := by intro h; subst h; simp at h3
  have h2 : 2 ≤ (values.map (·.2)).length := by simp; omega
  have h3' : 3 ≤ (values.map (·.2)).length := by simp; omega
  simp only [calculateMetricTrends, if_neg hnil, if_pos h2, if_pos h3']
  exact ⟨_, rfl, rfl, rfl⟩

/-- C7 amended, witness: a concrete 3-point series has the index-regression
slope and the derived change rate. -/
theorem trendSlope_indexOLS_witness :
    ∃ st, calculateMetricTrends [(0,1),(1,2),(2,4)] = .stats st ∧
      st.slope = olsSlope (idxPairs (([(0,1),(1,2),(2,4)] : List (ℚ × ℚ)).map (·.2))) ∧
      st.change_rate_pct =
        (if meanOf (([(0,1),(1,2),(2,4)] : List (ℚ × ℚ)).map (·.2)) ≠ 0
          then olsSlope (idxPairs (([(0,1),(1,2),(2,4)] : List (ℚ × ℚ)).map (·.2))) * 24 /
            meanOf (([(0,1),(1,2),(2,4)] : List (ℚ × ℚ)).map (·.2))
          else 0) * 100 :=
  trendSlope_indexOLS [(0,1),(1,2),(2,4)] (by decide)

/-! ## Forecast ensemble (src/enhanced/prediction.py) -/

/-- Python int() truncation toward zero of a rational. -/
def pyTrunc (q : ℚ) : ℤ := q.num.tdiv (q.den : ℤ)

/-- Hour-of-day key used by the seasonal model: int(timestamp) % 24. -/
def hourKey (q : ℚ) : ℤ := pyTrunc q % 24

/-- Python max for two rationals (second argument wins only when strictly
larger, as in max(0.1, w)). -/
def ratMax (a b : ℚ) : ℚ := if a < b then b else a

/-- PredictionEngine._linear_forecast: OLS fit plus extrapolation, returning
(forecast, slope, intercept) with the short-series and zero-denominator
fallbacks of the source. -/
def linearForecast (x y : List ℚ) (hoursAhead : ℚ) : ℚ × ℚ × ℚ :=
  if x.length < 2 ∨ y.length < 2 then
    (y.getLast?.getD 0, 0, y.getLast?.getD 0)
  else
    let n : ℚ := x.length
    let sx := x.sum
    let sy := y.sum
    let sxy := ((x.zip y).map (fun p => p.1 * p.2)).sum
    let sxx := (x.map (fun v => v * v)).sum
    let denom := n * sxx - sx * sx
    let slope := if denom = 0 then 0 else (n * sxy - sx * sy) / denom
    let intercept := if denom = 0 then meanOf y else (sy - slope * sx) / n
    (slope * (x.getLast?.getD 0 + hoursAhead) + intercept, slope, intercept)

/-- PredictionEngine._seasonal_forecast, restricted to the forecast value the
callers use (the hourly-ratio reference dictionary the source also returns is
consulted by no caller). -/
def seasonalForecast (x y : List ℚ) (hoursAhead : ℕ) : ℚ :=
  if y.length < 48 then y.getLast?.getD 0
  else
    let overall := meanOf y
    let hourVals : ℤ → List ℚ := fun h =>
      ((x.zip y).filter (fun p => hourKey p.1 == h)).map (·.2)
    let factorAt : ℤ → ℚ := fun h =>
      if hourVals h = [] then 1
      else if overall = 0 then 1 else meanOf (hourVals h) / overall
    let currentHour := hourKey (x.getLast?.getD 0)
    let forecastHour := (currentHour + (hoursAhead : ℤ)) % 24
    (linearForecast x y (hoursAhead : ℚ)).1 * factorAt forecastHour

/-- Final exponentially smoothed value of a list under smoothing factor
alpha, starting from its first element. -/
def smoothRun (alpha : ℚ) (l : List ℚ) : ℚ :=
  match l with
  | [] => 0
  | h :: t => t.foldl (fun f v => alpha * v + (1 - alpha) * f) h

/-- One-step-ahead forecasts generated while smoothing the training list. -/
def oneStepForecasts (alpha : ℚ) (train : List ℚ) : List ℚ :=
  match train with
  | [] => []
  | h :: t => (t.scanl (fun f v => alpha * v + (1 - alpha) * f) h).tail

/-- Holdout mean squared error for one smoothing factor; none models the
float('inf') starting error when no errors exist. -/
def holdoutMse (alpha : ℚ) (train test : List ℚ) : Option ℚ :=
  let fcs := oneStepForecasts alpha train ++
    List.replicate test.length (smoothRun alpha train)
  let tailFc := fcs.drop (fcs.length - test.length)
  let errs := (tailFc.zip test).map (fun p => (p.1 - p.2) * (p.1 - p.2))
  if errs = [] then none else some (errs.sum / (errs.length : ℚ))

/-- Grid search for the best smoothing factor over the 80/20 split, defaulting
to 0.3 without enough validation data; strict improvements only, first
candidate wins ties. -/
def bestAlpha (yf : List ℚ) : ℚ :=
  let trainSize := yf.length * 4 / 5
  if 10 ≤ trainSize then
    let train := yf.take trainSize
    let test := yf.drop trainSize
    (([(1:ℚ)/10, 2/10, 3/10, 5/10, 7/10, 9/10].foldl
      (fun (best : ℚ × Option ℚ) alpha =>
        match holdoutMse alpha train test, best.2 with
        | none, _ => best
        | some m, none => (alpha, some m)
        | some m, some b => if m < b then (alpha, some m) else best)
      (3/10, none))).1
  else 3/10

/-- PredictionEngine._exponential_forecast: smooth the positive values with
the grid-searched factor and project flat (the hours-ahead argument is unused
by the source as well). -/
def expForecast (y : List ℚ) (hoursAhead : ℕ) : ℚ :=
  if y = [] then 0
  else
    let yf := y.filter (fun v => decide (0 < v))
    if yf = [] then y.getLast?.getD 0
    else smoothRun (bestAlpha yf) yf

/-- The three ensemble model weights. -/
structure MWeights where
  linear : ℚ
  seasonal : ℚ
  exponential : ℚ
deriving DecidableEq, Repr

/-- Default ensemble weights {linear: 0.4, seasonal: 0.4, exponential: 0.2}. -/
def defaultWeights : MWeights := ⟨4/10, 4/10, 2/10⟩

/-- One iteration of the validation loop: forecast with each model for the
current offset and accumulate the squared errors. -/
def valStep (trainX trainY valY : List ℚ) (acc : ℚ × ℚ × ℚ) (i : ℕ) :
    ℚ × ℚ × ℚ :=
  let lv := (linearForecast trainX trainY (i : ℚ)).1
  let sv := if 72 ≤ trainY.length then seasonalForecast trainX trainY i else lv
  let ev := if trainY.all (fun v => decide (0 < v)) then expForecast trainY i
    else lv
  let actual := valY.getD i 0
  (acc.1 + (lv - actual) * (lv - actual),
    acc.2.1 + (sv - actual) * (sv - actual),
    acc.2.2 + (ev - actual) * (ev - actual))

/-- Accumulated squared validation errors (linear, seasonal, exponential) of
the one-step-ahead forecasts over the validation slice. -/
def valErrors (trainX trainY valX valY : List ℚ) : ℚ × ℚ × ℚ :=
  (List.range valX.length).foldl (valStep trainX trainY valY) (0, 0, 0)

/-- Per-model MSE with the zero clamp to 1e-10 of the source. -/
def clampMse (e : ℚ) (valSize : ℕ) : ℚ :=
  let m := e / (valSize : ℚ)
  if m = 0 then 1/10000000000 else m

/-- Normalize inverse MSEs into weights, floor each at 0.1, renormalize; the
total is positive on every reachable input, otherwise the defaults survive
exactly as in the source. -/
def optimizeWeights (mseL mseS mseE : ℚ) : MWeights :=
  let invL := 1 / mseL
  let invS := 1 / mseS
  let invE := 1 / mseE
  let total := invL + invS + invE
  if 0 < total then
    let fL := ratMax (1/10) (invL / total)
    let fS := ratMax (1/10) (invS / total)
    let fE := ratMax (1/10) (invE / total)
    let t2 := fL + fS + fE
    ⟨fL / t2, fS / t2, fE / t2⟩
  else defaultWeights

/-- PredictionEngine._ensemble_forecast: validation-weighted combination of
the three model predictions; weights are re-estimated only with at least 72
points and a validation slice of at least 12. -/
def ensembleForecast (x y : List ℚ) (hoursAhead : ℕ)
    (linearPred seasonalPred expPred : ℚ) : ℚ × MWeights :=
  let weights :=
    if 72 ≤ y.length then
      let trainSize := y.length * 7 / 10
      let valSize := y.length / 5
      if 12 ≤ valSize then
        let trainX := x.take trainSize
        let trainY := y.take trainSize
        let valX := (x.drop trainSize).take valSize
        let valY := (y.drop trainSize).take valSize
        let ve := valErrors trainX trainY valX valY
        optimizeWeights (clampMse ve.1 valSize) (clampMse ve.2.1 valSize)
          (clampMse ve.2.2 valSize)
      else defaultWeights
    else defaultWeights
  (weights.linear * linearPred + weights.seasonal * seasonalPred +
    weights.exponential * expPred, weights)

/-- A raw stored sample as forecast_metric receives it: none stands for an
entry whose timestamp or value fails to parse, some (t, v) for one parsing to
timestamp t (hours) and float value v. -/
def RawSample : Type := Option (ℚ × ℚ)

/-- The parse loop of forecast_metric: drop unparsable entries, measure hours
since the first successfully parsed timestamp. -/
def parsePoints : List RawSample → Option ℚ → List (ℚ × ℚ)
  | [], _ => []
  | none :: rest, b => parsePoints rest b
  | some (t, v) :: rest, none => (0, v) :: parsePoints rest (some t)
  | some (t, v) :: rest, some b => (t - b, v) :: parsePoints rest (some b)

/-- Outcome of forecast_metric. The success record carries the values the
claims consult (current value, ensemble forecast, weights, point count,
slope); the confidence-interval fields, which mix in a square root, are the
only omissions and no claim mentions them. -/
inductive ForecastOutcome where
  | insufficientData (required available : ℕ)
  | noValidData
  | success (currentValue forecastValue : ℚ) (hoursAhead : ℕ)
      (weights : MWeights) (dataPointsUsed : ℕ) (slope : ℚ)
deriving DecidableEq, Repr

/-- True only on the typed insufficient-data result. -/
def ForecastOutcome.isInsufficient : ForecastOutcome → Bool
  | .insufficientData _ _ => true
  | _ => false

/-- PredictionEngine.forecast_metric: the 24-point gate is applied to the raw
history before the parse loop discards unparsable entries. -/
def forecastMetric (history : List RawSample) (hoursAhead : ℕ) :
    ForecastOutcome :=
  if history.length < 24 then .insufficientData 24 history.length
  else
    let pts := parsePoints history none
    if pts = [] then .noValidData
    else
      let x := pts.map (·.1)
      let v := pts.map (·.2)
      let lf := linearForecast x v (hoursAhead : ℚ)
      let lp := lf.1
      let sp := if 72 ≤ v.length then seasonalForecast x v hoursAhead else lp
      let ep := if v.all (fun w => decide (0 < w)) then expForecast v hoursAhead
        else lp
      let ew := ensembleForecast x v hoursAhead lp sp ep
      .success (v.getLast?.getD 0) ew.1 hoursAhead ew.2 v.length lf.2.1

/-! ### Claim theorems for the forecast ensemble -/

/-- Validation errors are sums of squares, hence nonnegative in every
component. -/
theorem valErrors_nonneg (tx ty vx vy : List ℚ) :
    0 ≤ (valErrors tx ty vx vy).1 ∧ 0 ≤ (valErrors tx ty vx vy).2.1 ∧
      0 ≤ (valErrors tx ty vx vy).2.2 := by
  have H : ∀ (idxs : List ℕ) (acc : ℚ × ℚ × ℚ), 0 ≤ acc.1 → 0 ≤ acc.2.1 →
      0 ≤ acc.2.2 →
      0 ≤ (idxs.foldl (valStep tx ty vy) acc).1 ∧
        0 ≤ (idxs.foldl (valStep tx ty vy) acc).2.1 ∧
        0 ≤ (idxs.foldl (valStep tx ty vy) acc).2.2 := by
    intro idxs
    induction idxs with
    | nil => intro acc ha hb hc; exact ⟨ha, hb, hc⟩
    | cons i rest ih =>
      intro acc ha hb hc
      rw [List.foldl_cons]
      apply ih
      · have := mul_self_nonneg ((linearForecast tx ty (i : ℚ)).1 - vy.getD i 0)
        simp only [valStep]
        linarith
      · have := mul_self_nonneg
          ((if 72 ≤ ty.length then seasonalForecast tx ty i
            else (linearForecast tx ty (i : ℚ)).1) - vy.getD i 0)
        simp only [valStep]
        linarith
      · have := mul_self_nonneg
          ((if ty.all (fun v => decide (0 < v)) then expForecast ty i
            else (linearForecast tx ty (i : ℚ)).1) - vy.getD i 0)
        simp only [valStep]
        linarith
  exact H _ _ le_rfl le_rfl le_rfl

/-- The clamped mean squared error is strictly positive whenever the raw
error sum is nonnegative. -/
theorem clampMse_pos (e : ℚ) (n : ℕ) (he : 0 ≤ e) : 0 < clampMse e n := by
  unfold clampMse
  by_cases h : e / (n : ℚ) = 0
  · rw [if_pos h]; norm_num
  · rw [if_neg h]
    have : 0 ≤ e / (n : ℚ) := div_nonneg he (by positivity)
    exact lt_of_le_of_ne this (Ne.symm h)

/-- Flooring three positive normalized weights at 0.1 and renormalizing gives
weights that sum to exactly 1 with each at least 1/12 (the floor pushes the
total up to at most 6/5, so a floored weight can end below 0.1 but never
below 1/12). -/
theorem floorRenorm_bounds (w1 w2 w3 : ℚ) (h1 : 0 < w1) (h2 : 0 < w2)
    (h3 : 0 < w3) (hsum : w1 + w2 + w3 = 1) :
    ratMax (1/10) w1 / (ratMax (1/10) w1 + ratMax (1/10) w2 + ratMax (1/10) w3) +
      ratMax (1/10) w2 / (ratMax (1/10) w1 + ratMax (1/10) w2 + ratMax (1/10) w3) +
      ratMax (1/10) w3 / (ratMax (1/10) w1 + ratMax (1/10) w2 + ratMax (1/10) w3) = 1 ∧
    1/12 ≤ ratMax (1/10) w1 / (ratMax (1/10) w1 + ratMax (1/10) w2 + ratMax (1/10) w3) ∧
    1/12 ≤ ratMax (1/10) w2 / (ratMax (1/10) w1 + ratMax (1/10) w2 + ratMax (1/10) w3) ∧
    1/12 ≤ ratMax (1/10) w3 / (ratMax (1/10) w1 + ratMax (1/10) w2 + ratMax (1/10) w3) := by
  set f1 := ratMax (1/10) w1 with hf1
  set f2 := ratMax (1/10) w2 with hf2
  set f3 := ratMax (1/10) w3 with hf3
  have hc1 : (w1 < 1/10 ∧ f1 = 1/10) ∨ f1 = w1 := by
    rw [hf1, ratMax]; split
    · right; rfl
    · rename_i hlt
      rcases eq_or_lt_of_le (not_lt.mp hlt) with he | hl
      · right; rw [he]
      · left; exact ⟨hl, rfl⟩
  have hc2 : (w2 < 1/10 ∧ f2 = 1/10) ∨ f2 = w2 := by
    rw [hf2, ratMax]; split
    · right; rfl
    · rename_i hlt
      rcases eq_or_lt_of_le (not_lt.mp hlt) with he | hl
      · right; rw [he]
      · left; exact ⟨hl, rfl⟩
  have hc3 : (w3 < 1/10 ∧ f3 = 1/10) ∨ f3 = w3 := by
    rw [hf3, ratMax]; split
    · right; rfl
    · rename_i hlt
      rcases eq_or_lt_of_le (not_lt.mp hlt) with he | hl
      · right; rw [he]
      · left; exact ⟨hl, rfl⟩
  have hg1 : 1/10 ≤ f1 := by rw [hf1, ratMax]; split <;> linarith
  have hg2 : 1/10 ≤ f2 := by rw [hf2, ratMax]; split <;> linarith
  have hg3 : 1/10 ≤ f3 := by rw [hf3, ratMax]; split <;> linarith
  have htpos : 0 < f1 + f2 + f3 := by linarith
  have htle : f1 + f2 + f3 ≤ 6/5 := by
    rcases hc1 with ⟨hw1, he1⟩ | he1 <;> rcases hc2 with ⟨hw2, he2⟩ | he2 <;>
      rcases hc3 with ⟨hw3, he3⟩ | he3 <;> rw [he1, he2, he3] <;> linarith
  refine ⟨?_, ?_, ?_, ?_⟩
  · rw [div_add_div_same, div_add_div_same, div_self htpos.ne']
  · rw [le_div_iff₀ htpos]; linarith
  · rw [le_div_iff₀ htpos]; linarith
  · rw [le_div_iff₀ htpos]; linarith

/-- Weight optimization on positive per-model MSEs yields weights summing to
exactly 1 with every weight at least 1/12. -/
theorem optimizeWeights_bounds (a b c : ℚ) (ha : 0 < a) (hb : 0 < b)
    (hc : 0 < c) :
    (optimizeWeights a b c).linear + (optimizeWeights a b c).seasonal +
        (optimizeWeights a b c).exponential = 1 ∧
      1/12 ≤ (optimizeWeights a b c).linear ∧
      1/12 ≤ (optimizeWeights a b c).seasonal ∧
      1/12 ≤ (optimizeWeights a b c).exponential := by
  have htot : 0 < 1/a + 1/b + 1/c := by positivity
  have hw1 : 0 < (1/a) / (1/a + 1/b + 1/c) := by positivity
  have hw2 : 0 < (1/b) / (1/a + 1/b + 1/c) := by positivity
  have hw3 : 0 < (1/c) / (1/a + 1/b + 1/c) := by positivity
  have hsum : (1/a) / (1/a + 1/b + 1/c) + (1/b) / (1/a + 1/b + 1/c) +
      (1/c) / (1/a + 1/b + 1/c) = 1 := by
    rw [div_add_div_same, div_add_div_same, div_self htot.ne']
  have hbounds := floorRenorm_bounds _ _ _ hw1 hw2 hw3 hsum
  simp only [optimizeWeights, if_pos htot]
  exact hbounds

/-- The 72-point series on which weight optimization floors two raw weights:
25 samples at 100 followed by 47 samples at 1, one per hour. -/
def ctexY : List ℚ := List.replicate 25 100 ++ List.replicate 47 1

/-- Hourly x axis matching ctexY. -/
def ctexX : List ℚ := (List.range 72).map (fun i => (i : ℚ))

set_option maxRecDepth 100000 in
/-- C1 counterexample: on a 72-point series (weight optimization runs: the
validation slice has 14 points) the returned linear weight is below 0.1. The
source floors the raw weights at 0.1 and only then renormalizes by the now
larger total, so the floor is not preserved. -/
theorem ensembleWeights_counterexample :
    72 ≤ ctexY.length ∧
      (ensembleForecast ctexX ctexY 24 0 0 0).2.linear < 1/10 := by decide

/-- C1 amended: whenever weight optimization runs (at least 72 points, which
forces a validation slice of at least 14 >= 12 points), the returned weights
sum to exactly 1 and each weight is at least 1/12; the 0.1 floor holds before
the final renormalization but not after it. -/
theorem ensembleWeights_bounds (x y : List ℚ) (hoursAhead : ℕ) (lp sp ep : ℚ)
    (h72 : 72 ≤ y.length) :
    (ensembleForecast x y hoursAhead lp sp ep).2.linear +
        (ensembleForecast x y hoursAhead lp sp ep).2.seasonal +
        (ensembleForecast x y hoursAhead lp sp ep).2.exponential = 1 ∧
      1/12 ≤ (ensembleForecast x y hoursAhead lp sp ep).2.linear ∧
      1/12 ≤ (ensembleForecast x y hoursAhead lp sp ep).2.seasonal ∧
      1/12 ≤ (ensembleForecast x y hoursAhead lp sp ep).2.exponential := by
  have hval : 12 ≤ y.length / 5 := by
    calc 12 ≤ 72 / 5 := by norm_num
    _ ≤ y.length / 5 := Nat.div_le_div_right h72
  obtain ⟨hn1, hn2, hn3⟩ := valErrors_nonneg (x.take (y.length * 7 / 10))
    (y.take (y.length * 7 / 10))
    ((x.drop (y.length * 7 / 10)).take (y.length / 5))
    ((y.drop (y.length * 7 / 10)).take (y.length / 5))
  simp only [ensembleForecast, if_pos h72, if_pos hval]
  exact optimizeWeights_bounds _ _ _ (clampMse_pos _ _ hn1)
    (clampMse_pos _ _ hn2) (clampMse_pos _ _ hn3)

set_option maxRecDepth 100000 in
/-- C1 amended, witness: a constant positive 72-point series gets weights
summing to 1 with each at least 1/12. -/
theorem ensembleWeights_bounds_witness :
    (ensembleForecast ((List.range 72).map (fun i => (i : ℚ)))
          (List.replicate 72 5) 24 0 0 0).2.linear +
        (ensembleForecast ((List.range 72).map (fun i => (i : ℚ)))
          (List.replicate 72 5) 24 0 0 0).2.seasonal +
        (ensembleForecast ((List.range 72).map (fun i => (i : ℚ)))
          (List.replicate 72 5) 24 0 0 0).2.exponential = 1 ∧
      1/12 ≤ (ensembleForecast ((List.range 72).map (fun i => (i : ℚ)))
          (List.replicate 72 5) 24 0 0 0).2.linear ∧
      1/12 ≤ (ensembleForecast ((List.range 72).map (fun i => (i : ℚ)))
          (List.replicate 72 5) 24 0 0 0).2.seasonal ∧
      1/12 ≤ (ensembleForecast ((List.range 72).map (fun i => (i : ℚ)))
          (List.replicate 72 5) 24 0 0 0).2.exponential :=
  ensembleWeights_bounds _ _ 24 0 0 0 (by decide)

/-- A raw history of 24 entries of which one fails to parse and one parses to
the value 0. -/
def rawHistory24 : List RawSample :=
  (List.range 24).map (fun i =>
    if i = 5 then (none : Option (ℚ × ℚ))
    else some ((i : ℚ), if i = 3 then 0 else 10))

set_option maxRecDepth 100000 in
/-- C8 counterexample: the 24-point gate counts raw entries before parsing.
This history holds only 23 parsable points, yet forecast_metric does not
return the insufficient-data result — it proceeds to a forecast. -/
theorem forecastMetric_counterexample :
    (parsePoints rawHistory24 none).length = 23 ∧ 23 < 24 ∧
      (forecastMetric rawHistory24 24).isInsufficient = false := by decide

/-- C8 amended: forecast_metric requires at least 24 raw history entries,
counted before unparsable samples are discarded; with fewer it returns the
typed insufficient-data result naming the required count 24 and the available
raw count, and the function is total, so nothing is thrown. A history whose
entries all fail to parse yields the separate no-valid-data error instead. -/
theorem forecastMetric_rawGate (history : List RawSample) (hoursAhead : ℕ)
    (h : history.length < 24) :
    forecastMetric history hoursAhead = .insufficientData 24 history.length := by
  unfold forecastMetric
  simp [h]

/-- C8 amended, witness: a three-entry history is refused with required 24,
available 3. -/
theorem forecastMetric_rawGate_witness :
    forecastMetric [some (0, 5), some (1, 6), some (2, 7)] 24 =
      .insufficientData 24 3 :=
  forecastMetric_rawGate [some (0, 5), some (1, 6), some (2, 7)] 24 (by decide)

/-! ## Maintenance scheduler (src/enhanced/prediction.py generate_schedule) -/

/-- Python min for two rationals (second argument wins only when strictly
smaller, as in min(100, x)). -/
def ratMin (a b : ℚ) : ℚ := if b < a then b else a

/-- The forecast values the predictions dictionary carries for the three
metrics the scheduler consults (none when that metric has no forecast_value). -/
structure Forecasts where
  cpu : Option ℚ
  mem : Option ℚ
  disk : Option ℚ
deriving DecidableEq, Repr

/-- The forecast-dependent part of a slot score: cpu, memory and disk
components, each accumulated only when the forecast is present. -/
def baseScore (f : Forecasts) : ℚ :=
  (match f.cpu with
    | some v => 100 - ratMin 100 (v * 100)
    | none => 0) +
  (match f.mem with
    | some v => ratMin 100 (v / 10)
    | none => 0) +
  (match f.disk with
    | some v => 100 - ratMin 100 v
    | none => 0)

/-- Full slot score: base plus 50 for night hours (before 7 or from 19), else
25 on weekend days. -/
def slotScore (hour wd : ℕ) (f : Forecasts) : ℚ :=
  if hour < 7 ∨ 19 ≤ hour then baseScore f + 50
  else if 5 ≤ wd then baseScore f + 25
  else baseScore f

/-- Weekday of the slot timestamp now + day days + hour hours, with now given
in minutes since a Monday midnight epoch (Monday = 0 as in Python). -/
def slotWeekday (nowMin day hour : ℕ) : ℕ :=
  ((nowMin + day * 1440 + hour * 60) / 1440) % 7

/-- One slot of the 7-day x 24-hour grid: slot i covers day i / 24, hour
offset i % 24, starts with no assigned activities. -/
structure Slot where
  day : ℕ
  hour : ℕ
  weekday : ℕ
  forecasts : Forecasts
  score : ℚ
  activities : List String
deriving DecidableEq, Repr

/-- Build slot i of the grid. -/
def mkSlot (nowMin : ℕ) (f : Forecasts) (i : ℕ) : Slot :=
  { day := i / 24
    hour := i % 24
    weekday := slotWeekday nowMin (i / 24) (i % 24)
    forecasts := f
    score := slotScore (i % 24) (slotWeekday nowMin (i / 24) (i % 24)) f
    activities := [] }

/-- The full grid in construction order (day-major, hour-minor). -/
def initialSlots (nowMin : ℕ) (f : Forecasts) : List Slot :=
  (List.range 168).map (mkSlot nowMin f)

/-- The metric precondition attached to an activity in the fixed catalogue. -/
inductive ActMetric where
  | cpu
  | mem
  | disk
  | combined
deriving DecidableEq, Repr

/-- A maintenance activity: its name and the metric its precondition reads
(duration, impact and best_time strings play no part in assignment). -/
structure Activity where
  name : String
  metric : ActMetric
deriving DecidableEq, Repr

/-- The fixed catalogue in the dictionary insertion order the source
iterates. -/
def activitiesList : List Activity :=
  [⟨"log_rotation", .disk⟩, ⟨"memory_cleanup", .mem⟩,
    ⟨"security_scan", .cpu⟩, ⟨"system_backup", .combined⟩]

/-- The per-activity slot precondition: combined score above 200, cpu
forecast below 0.5, free memory forecast below 500 or disk usage forecast
above 70; false when the metric has no forecast. -/
def precond (a : Activity) (s : Slot) : Bool :=
  match a.metric with
  | .combined => decide (200 < s.score)
  | .cpu =>
    match s.forecasts.cpu with
    | some v => decide (v < 1/2)
    | none => false
  | .mem =>
    match s.forecasts.mem with
    | some v => decide (v < 500)
    | none => false
  | .disk =>
    match s.forecasts.disk with
    | some v => decide (70 < v)
    | none => false

/-- One greedy pass for one activity: scan the slot list in order, occupy the
first unoccupied slot whose precondition holds, leave everything else
untouched. -/
def assignActivity (a : Activity) : List Slot → List Slot
  | [] => []
  | s :: rest =>
    if s.activities.isEmpty && precond a s then
      { s with activities := [a.name] } :: rest
    else s :: assignActivity a rest

/-- Greedy assignment of the whole catalogue, in catalogue order. -/
def assignAll (acts : List Activity) (slots : List Slot) : List Slot :=
  acts.foldl (fun sl a => assignActivity a sl) slots

/-- The slot list sorted by descending score (stable, as Python sort with
reverse=True). -/
def sortedSlots (nowMin : ℕ) (f : Forecasts) : List Slot :=
  (initialSlots nowMin f).mergeSort (fun a b => decide (b.score ≤ a.score))

/-- PredictionEngine.generate_schedule: score and sort the grid, greedily
assign the catalogue, and return only the occupied slots. -/
def generateSchedule (nowMin : ℕ) (f : Forecasts) : List Slot :=
  (assignAll activitiesList (sortedSlots nowMin f)).filter
    (fun s => !s.activities.isEmpty)

/-! ### Claim theorems for the maintenance scheduler -/

/-- A slot that is still unoccupied and satisfies the precondition of the
given activity. -/
def emptySat (a : Activity) (s : Slot) : Bool := s.activities.isEmpty && precond a s

theorem assignActivity_of_none (a : Activity) (l : List Slot)
    (h : ∀ s ∈ l, precond a s = false) : assignActivity a l = l := by
  induction l with
  | nil => rfl
  | cons s rest ih =>
    have hs := h s (List.mem_cons_self s rest)
    have hr := ih (fun t ht => h t (List.mem_cons_of_mem s ht))
    simp [assignActivity, hs, hr]

theorem assignActivity_mem (a : Activity) (l : List Slot)
    (h : ∃ s ∈ l, emptySat a s = true) :
    ∃ s' ∈ assignActivity a l, s'.activities = [a.name] := by
  induction l with
  | nil => simp at h
  | cons s rest ih =>
    unfold assignActivity
    by_cases hc : (s.activities.isEmpty && precond a s) = true
    · rw [if_pos hc]
      exact ⟨_, List.mem_cons_self _ _, rfl⟩
    · rw [if_neg hc]
      obtain ⟨t, ht, hsat⟩ := h
      rcases List.mem_cons.mp ht with rfl | htr
      · exact absurd hsat hc
      · obtain ⟨s', hs', he⟩ := ih ⟨t, htr, hsat⟩
        exact ⟨s', List.mem_cons_of_mem _ hs', he⟩

theorem assignActivity_preserves (a : Activity) (l : List Slot) (s : Slot)
    (hs : s ∈ l) (hne : s.activities ≠ []) : s ∈ assignActivity a l := by
  induction l with
  | nil => simp at hs
  | cons t rest ih =>
    unfold assignActivity
    rcases List.mem_cons.mp hs with rfl | hsr
    · have : s.activities.isEmpty = false := by
        simpa [List.isEmpty_iff] using hne
      rw [this]
      simp only [Bool.false_and, if_false]
      exact List.mem_cons_self _ _
    · split
      · exact List.mem_cons_of_mem _ hsr
      · exact List.mem_cons_of_mem _ (ih hsr)

theorem assignActivity_sub (a : Activity) (l : List Slot) :
    ∀ s' ∈ assignActivity a l, s' ∈ l ∨
      ∃ s ∈ l, s.activities = [] ∧ precond a s = true ∧
        s' = { s with activities := [a.name] } := by
  induction l with
  | nil => simp [assignActivity]
  | cons s rest ih =>
    intro s' hs'
    unfold assignActivity at hs'
    by_cases hc : (s.activities.isEmpty && precond a s) = true
    · rw [if_pos hc] at hs'
      rcases List.mem_cons.mp hs' with rfl | hsr
      · right
        refine ⟨s, List.mem_cons_self _ _, ?_, ?_, rfl⟩
        · simpa [List.isEmpty_iff] using (Bool.and_elim_left hc)
        · exact Bool.and_elim_right hc
      · exact Or.inl (List.mem_cons_of_mem _ hsr)
    · rw [if_neg hc] at hs'
      rcases List.mem_cons.mp hs' with rfl | hsr
      · exact Or.inl (List.mem_cons_self _ _)
      · rcases ih s' hsr with hin | ⟨t, ht, he, hp, hu⟩
        · exact Or.inl (List.mem_cons_of_mem _ hin)
        · exact Or.inr ⟨t, List.mem_cons_of_mem _ ht, he, hp, hu⟩

theorem assignActivity_countP (b a : Activity) (l : List Slot) :
    l.countP (emptySat b) ≤ (assignActivity a l).countP (emptySat b) + 1 := by
  induction l with
  | nil => simp [assignActivity]
  | cons s rest ih =>
    unfold assignActivity
    by_cases hc : (s.activities.isEmpty && precond a s) = true
    · rw [if_pos hc]
      simp only [List.countP_cons]
      have : emptySat b { s with activities := [a.name] } = false := by
        simp [emptySat]
      rw [this]
      have h1 : (if emptySat b s = true then 1 else 0) ≤ 1 := by split <;> omega
      omega
    · rw [if_neg hc]
      simp only [List.countP_cons]
      omega

theorem assignActivity_empty_rev (a : Activity) (l : List Slot) (s' : Slot)
    (h : s' ∈ assignActivity a l) (he : s'.activities = []) : s' ∈ l := by
  rcases assignActivity_sub a l s' h with hin | ⟨s, _, _, _, hu⟩
  · exact hin
  · rw [hu] at he
    simp at he

theorem assignAll_countP (b : Activity) (acts : List Activity) (l : List Slot) :
    l.countP (emptySat b) ≤ (assignAll acts l).countP (emptySat b) + acts.length := by
  induction acts generalizing l with
  | nil => simp [assignAll]
  | cons a rest ih =>
    have h1 := assignActivity_countP b a l
    have h2 := ih (assignActivity a l)
    simp only [assignAll, List.foldl_cons, List.length_cons] at h2 ⊢
    omega

theorem assignAll_preserves (acts : List Activity) (l : List Slot) (s : Slot)
    (hs : s ∈ l) (hne : s.activities ≠ []) : s ∈ assignAll acts l := by
  induction acts generalizing l with
  | nil => simpa [assignAll] using hs
  | cons a rest ih =>
    simp only [assignAll, List.foldl_cons]
    exact ih (assignActivity a l) (assignActivity_preserves a l s hs hne)

theorem assignAll_sub (acts : List Activity) (l : List Slot) :
    ∀ s' ∈ assignAll acts l, s' ∈ l ∨
      ∃ b ∈ acts, ∃ s ∈ l, s.activities = [] ∧ precond b s = true ∧
        s' = { s with activities := [b.name] } := by
  induction acts generalizing l with
  | nil => intro s' h; exact Or.inl (by simpa [assignAll] using h)
  | cons a rest ih =>
    intro s' h
    simp only [assignAll, List.foldl_cons] at h
    rcases ih (assignActivity a l) s' h with hin | ⟨b, hb, s, hsm, hse, hsp, hu⟩
    · rcases assignActivity_sub a l s' hin with hin2 | ⟨s, hsm, hse, hsp, hu⟩
      · exact Or.inl hin2
      · exact Or.inr ⟨a, List.mem_cons_self _ _, s, hsm, hse, hsp, hu⟩
    · have hsl : s ∈ l := assignActivity_empty_rev a l s hsm hse
      exact Or.inr ⟨b, List.mem_cons_of_mem _ hb, s, hsl, hse, hsp, hu⟩

theorem assignAll_assigns (acts : List Activity) (l : List Slot) (a : Activity)
    (ha : a ∈ acts) (hall : ∀ s ∈ l, s.activities = [])
    (hcount : acts.length ≤ l.countP (precond a)) :
    ∃ s' ∈ assignAll acts l, s'.activities = [a.name] := by
  obtain ⟨pre, post, rfl⟩ := List.append_of_mem ha
  have hce : l.countP (emptySat a) = l.countP (precond a) :=
    List.countP_congr (fun s hs => by simp [emptySat, hall s hs])
  have h1 := assignAll_countP a pre l
  have hlen : (pre ++ a :: post).length = pre.length + 1 + post.length := by
    simp [List.length_append]
    omega
  have hpos : 0 < (assignAll pre l).countP (emptySat a) := by omega
  obtain ⟨t, ht, hts⟩ := List.countP_pos_iff.mp hpos
  obtain ⟨s', hs', he⟩ := assignActivity_mem a (assignAll pre l) ⟨t, ht, hts⟩
  refine ⟨s', ?_, he⟩
  have hfin : s' ∈ assignAll post (assignActivity a (assignAll pre l)) :=
    assignAll_preserves post _ s' hs' (by rw [he]; simp)
  simpa [assignAll, List.foldl_append, List.foldl_cons] using hfin

theorem slotScore_le (hour wd : ℕ) (f : Forecasts) :
    slotScore hour wd f ≤ baseScore f + 50 := by
  unfold slotScore
  split
  · linarith
  · split <;> linarith

theorem slotScore_night (hour wd : ℕ) (f : Forecasts)
    (hn : hour < 7 ∨ 19 ≤ hour) : slotScore hour wd f = baseScore f + 50 := by
  unfold slotScore
  rw [if_pos hn]

theorem initialSlots_activities (nowMin : ℕ) (f : Forecasts) :
    ∀ s ∈ initialSlots nowMin f, s.activities = [] := by
  intro s hs
  obtain ⟨i, _, rfl⟩ := List.mem_map.mp hs
  rfl

set_option maxRecDepth 20000 in
theorem countP_night (nowMin : ℕ) (f : Forecasts) :
    (initialSlots nowMin f).countP
      (fun s => decide (s.hour < 7 ∨ 19 ≤ s.hour)) = 84 := by
  unfold initialSlots
  rw [List.countP_map]
  have he : ((fun s => decide (s.hour < 7 ∨ 19 ≤ s.hour)) ∘ mkSlot nowMin f) =
      (fun i => decide (i % 24 < 7 ∨ 19 ≤ i % 24)) := rfl
  rw [he]
  decide

theorem countP_combined (nowMin : ℕ) (f : Forecasts) (a : Activity)
    (hm : a.metric = .combined)
    (hex : ∃ s ∈ initialSlots nowMin f, precond a s = true) :
    84 ≤ (initialSlots nowMin f).countP (precond a) := by
  obtain ⟨s0, hs0, hp0⟩ := hex
  obtain ⟨j, _, rfl⟩ := List.mem_map.mp hs0
  have hscore : (200:ℚ) < baseScore f + 50 := by
    have h1 : (200:ℚ) < (mkSlot nowMin f j).score := by
      simpa [precond, hm] using hp0
    have h2 := slotScore_le (j % 24) (slotWeekday nowMin (j / 24) (j % 24)) f
    calc (200:ℚ) < (mkSlot nowMin f j).score := h1
    _ ≤ baseScore f + 50 := h2
  calc (84:ℕ) = (initialSlots nowMin f).countP
        (fun s => decide (s.hour < 7 ∨ 19 ≤ s.hour)) := (countP_night nowMin f).symm
  _ ≤ (initialSlots nowMin f).countP (precond a) := by
      apply List.countP_mono_left
      intro s hs hnight
      obtain ⟨i, _, rfl⟩ := List.mem_map.mp hs
      have hn : i % 24 < 7 ∨ 19 ≤ i % 24 := by simpa using hnight
      have : (mkSlot nowMin f i).score = baseScore f + 50 :=
        slotScore_night _ _ f hn
      simp [precond, hm, this, hscore]

theorem countP_metric (nowMin : ℕ) (f : Forecasts) (a : Activity)
    (hm : a.metric ≠ .combined)
    (hex : ∃ s ∈ initialSlots nowMin f, precond a s = true) :
    (initialSlots nowMin f).countP (precond a) = 168 := by
  obtain ⟨s0, hs0, hp0⟩ := hex
  obtain ⟨j, _, rfl⟩ := List.mem_map.mp hs0
  have hconst : ∀ i, precond a (mkSlot nowMin f i) = true := by
    intro i
    cases hc : a.metric with
    | combined => exact absurd hc hm
    | cpu =>
      rw [precond, hc] at hp0 ⊢
      exact hp0
    | mem =>
      rw [precond, hc] at hp0 ⊢
      exact hp0
    | disk =>
      rw [precond, hc] at hp0 ⊢
      exact hp0
  have hlen : (initialSlots nowMin f).length = 168 := by
    simp [initialSlots]
  rw [List.countP_eq_length.mpr, hlen]
  intro s hs
  obtain ⟨i, _, rfl⟩ := List.mem_map.mp hs
  exact hconst i

/-- C9: in the maintenance scheduler, an activity whose precondition no slot
satisfies remains unassigned; every activity whose precondition some slot
satisfies is scheduled (a satisfying precondition is shared by at least the
84 night slots, far more than the four catalogue activities can occupy); and
the returned schedule is exactly the occupied slots of the greedy pass. -/
theorem scheduler_greedy (nowMin : ℕ) (f : Forecasts) :
    (∀ a ∈ activitiesList,
        (∀ s ∈ initialSlots nowMin f, precond a s = false) →
        ∀ s ∈ generateSchedule nowMin f, a.name ∉ s.activities) ∧
      (∀ a ∈ activitiesList,
        (∃ s ∈ initialSlots nowMin f, precond a s = true) →
        ∃ s ∈ generateSchedule nowMin f, a.name ∈ s.activities) ∧
      (∀ s, s ∈ generateSchedule nowMin f ↔
        s ∈ assignAll activitiesList (sortedSlots nowMin f) ∧
          s.activities ≠ []) := by
  have hperm : (sortedSlots nowMin f).Perm (initialSlots nowMin f) :=
    List.mergeSort_perm (initialSlots nowMin f) _
  have hnames : ∀ x ∈ activitiesList, ∀ y ∈ activitiesList,
      x.name = y.name → x = y := by decide
  refine ⟨?_, ?_, ?_⟩
  · intro a ha hnone s hs hname
    have hsf : s ∈ assignAll activitiesList (sortedSlots nowMin f) :=
      (List.mem_filter.mp hs).1
    rcases assignAll_sub activitiesList (sortedSlots nowMin f) s hsf with
      hin | ⟨b, hb, t, htm, hte, htp, hu⟩
    · have hini : s ∈ initialSlots nowMin f := hperm.mem_iff.mp hin
      rw [initialSlots_activities nowMin f s hini] at hname
      exact absurd hname (List.not_mem_nil _)
    · rw [hu] at hname
      have hab : a.name = b.name := by simpa using hname
      have hba : a = b := hnames a ha b hb hab
      have hti : t ∈ initialSlots nowMin f := hperm.mem_iff.mp htm
      rw [← hba] at htp
      rw [hnone t hti] at htp
      exact absurd htp (by simp)
  · intro a ha hex
    have hall : ∀ s ∈ sortedSlots nowMin f, s.activities = [] :=
      fun s hs => initialSlots_activities nowMin f s (hperm.mem_iff.mp hs)
    have hcount : activitiesList.length ≤
        (sortedSlots nowMin f).countP (precond a) := by
      rw [hperm.countP_eq]
      have h4 : activitiesList.length = 4 := rfl
      by_cases hm : a.metric = .combined
      · have := countP_combined nowMin f a hm hex
        omega
      · have := countP_metric nowMin f a hm hex
        omega
    obtain ⟨s', hs', he⟩ :=
      assignAll_assigns activitiesList (sortedSlots nowMin f) a ha hall hcount
    refine ⟨s', ?_, by rw [he]; exact List.mem_singleton.mpr rfl⟩
    unfold generateSchedule
    rw [List.mem_filter]
    exact ⟨hs', by rw [he]; simp⟩
  · intro s
    unfold generateSchedule
    rw [List.mem_filter]
    simp [List.isEmpty_iff]

set_option maxRecDepth 20000 in
/-- C9 witness: with cpu forecast 0.3, free memory forecast 1000 and disk
usage forecast 50, no slot satisfies the disk-cleanup precondition and
log_rotation stays unassigned, while security_scan (cpu below 0.5 holds
everywhere) is scheduled. -/
theorem scheduler_greedy_witness :
    (∀ s ∈ generateSchedule 0 ⟨some (3/10), some 1000, some 50⟩,
        "log_rotation" ∉ s.activities) ∧
      ∃ s ∈ generateSchedule 0 ⟨some (3/10), some 1000, some 50⟩,
        "security_scan" ∈ s.activities :=
  ⟨(scheduler_greedy 0 ⟨some (3/10), some 1000, some 50⟩).1
      ⟨"log_rotation", .disk⟩ (by decide) (by decide),
    (scheduler_greedy 0 ⟨some (3/10), some 1000, some 50⟩).2.1
      ⟨"security_scan", .cpu⟩ (by decide) (by decide)⟩

end DeusEx
